import Mathlib

/-!
Verification of the simulation core of a grid snake game (src/main.rs).

The Rust program is a Bevy app whose game logic lives in seven systems,
chained in this order every frame: spawn (gated on the Restart event),
make_food, input, vroom, grow, eat, die.  This file embeds those systems as
pure Lean functions over an explicit world state:

  * positions (IVec2) become pairs of integers;
  * the VecDeque body becomes a list with the head at the front
    (push_front = cons, pop_back = dropLast, back = getLast);
  * wall-clock time is abstracted into a per-frame boolean saying whether
    the repeating tick timer finished this frame;
  * the thread RNG of make_food is abstracted into a per-frame stream of
    raw samples (rng.gen_range yields values in [0, 20) on each axis);
  * f32 durations become exact rationals;
  * entity despawns/spawns become Option/list updates;
  * the Changed<GridPos> query filters are reflected by invoking grow, eat
    and die only on frames where vroom wrote GridPos or the snake was
    spawned (Added counts as Changed);
  * bevy events: Restart is sent by input and read by spawn on the next
    frame, modelled by a buffered flag consumed at the start of a frame.

The .unwrap() calls of the source (body.front(), body.back()) are modelled
with Option: a frame returns none where the program would panic.
-/

abbrev IVec2 : Type := ℤ × ℤ

/-- STAGE_SIZE of main.rs, as_ivec2. -/
def STAGE_SIZE : IVec2 := (20, 20)

/-- START_DIR of main.rs (IVec2::Y). -/
def START_DIR : IVec2 := (0, 1)

/-- INITIAL_TICK_DELAY of main.rs. -/
def INITIAL_TICK_DELAY : ℚ := 15 / 100

/-- ACCELERATION of main.rs. -/
def ACCELERATION : ℚ := 1 / 100

/-- MIN_TICK_DELAY of main.rs. -/
def MIN_TICK_DELAY : ℚ := 5 / 100

/-- The GameState component: current and buffered direction. -/
structure GameState where
  curr_dir : IVec2
  next_dir : IVec2
deriving DecidableEq, Repr

/-- The Grow component: a countdown and a captured tail cell. -/
structure Grow where
  turns : ℕ
  pos : IVec2
deriving DecidableEq, Repr

/-- The snake entity: its Body, GameState and GridPos components. -/
structure Snake where
  body : List IVec2
  state : GameState
  gridPos : IVec2
deriving DecidableEq, Repr

/-- The three sound assets played by the game (ding.wav on spawn,
nom.wav on eat, ouch.wav on death). -/
inductive Sound where
  | ding
  | nom
  | ouch
deriving DecidableEq, Repr

/-- The whole mutable game state: the zero-or-one snake entity, the
zero-or-one Food entity, the live Grow entities in spawn order, the
FoodCount resource, the TickRate duration, the buffered Restart event,
whether the game-over text was written to the terminal, and the sounds
emitted during the current frame. -/
structure World where
  snake : Option Snake
  food : Option IVec2
  grows : List Grow
  count : ℕ
  tickDur : ℚ
  restartPending : Bool
  gameOverMsg : Bool
  sounds : List Sound
deriving DecidableEq, Repr

/-- The spec's Phase enumeration: Begin (no snake exists) versus
Playing (a snake exists). -/
inductive Phase where
  | Begin
  | Playing
deriving DecidableEq, Repr

def phaseOf (w : World) : Phase :=
  match w.snake with
  | some _ => Phase.Playing
  | none => Phase.Begin

/-- The keys sampled by the input system: the four movement axes
(already deduplicated across WASD/arrows, as any_pressed does) and
whether Space was just pressed. -/
structure Keys where
  left : Bool
  right : Bool
  up : Bool
  down : Bool
  space : Bool
deriving DecidableEq, Repr

/-- The per-frame external inputs: pressed keys, whether the TickRate
timer finished this frame, and the raw RNG samples make_food would draw. -/
structure FrameIn where
  keys : Keys
  tickFires : Bool
  samples : List IVec2
deriving DecidableEq, Repr

/-- The spawn system (main.rs): a fresh snake with a one-cell body at the
origin, both directions set to START_DIR, GridPos at the origin;
FoodCount reset to 0; the ding sound played; the tick duration reset to
INITIAL_TICK_DELAY. -/
def spawnSys (w : World) : World :=
  { w with
    snake := some
      { body := [((0 : ℤ), (0 : ℤ))],
        state := { curr_dir := START_DIR, next_dir := START_DIR },
        gridPos := (0, 0) },
    count := 0,
    sounds := w.sounds ++ [Sound.ding],
    tickDur := INITIAL_TICK_DELAY }

/-- pos = IVec2::new(x, y) - size / 2 in make_food. -/
def sampleToPos (t : IVec2) : IVec2 :=
  (t.1 - STAGE_SIZE.1 / 2, t.2 - STAGE_SIZE.2 / 2)

/-- A raw sample the RNG of make_food can draw:
rng.gen_range(0..size.x) and rng.gen_range(0..size.y). -/
def rawSample (t : IVec2) : Prop :=
  0 ≤ t.1 ∧ t.1 < STAGE_SIZE.1 ∧ 0 ≤ t.2 ∧ t.2 < STAGE_SIZE.2

instance (t : IVec2) : Decidable (rawSample t) := by
  unfold rawSample; infer_instance

/-- A cell the food sampler can produce, ignoring the occupied-by-Body
filter: the image of the raw sample range under sampleToPos. -/
def producible (c : IVec2) : Prop :=
  ∃ t : IVec2, rawSample t ∧ sampleToPos t = c

/-- The retry loop of make_food on a stream of raw samples: map each
sample into the field, skip it while it lies in the body, spawn food at
the first sample that does not. -/
def pickFood (samples : List IVec2) (body : List IVec2) : Option IVec2 :=
  match samples with
  | [] => none
  | t :: rest =>
    let p := sampleToPos t
    if p ∈ body then pickFood rest body else some p

/-- The make_food system: runs every frame; if no food exists and a snake
exists, spawn food at the first acceptable sampled cell. -/
def makeFoodSys (samples : List IVec2) (w : World) : World :=
  match w.food with
  | some _ => w
  | none =>
    match w.snake with
    | some s =>
      match pickFood samples s.body with
      | some p => { w with food := some p }
      | none => w
    | none => w

/-- hor = any_pressed(right) as i32 - any_pressed(left) as i32. -/
def horOf (k : Keys) : ℤ :=
  (if k.right then 1 else 0) - (if k.left then 1 else 0)

/-- ver = any_pressed(up) as i32 - any_pressed(down) as i32. -/
def verOf (k : Keys) : ℤ :=
  (if k.up then 1 else 0) - (if k.down then 1 else 0)

/-- The candidate direction written by input:
[hor, if hor == 0 { ver } else { 0 }]. -/
def candidate (k : Keys) : IVec2 :=
  (horOf k, if horOf k = 0 then verOf k else 0)

/-- The input system: with no snake, Space sends Restart; with a snake,
a zero axis pair returns early, any other candidate overwrites next_dir. -/
def inputSys (k : Keys) (w : World) : World :=
  match w.snake with
  | none => if k.space then { w with restartPending := true } else w
  | some s =>
    if horOf k = 0 ∧ verOf k = 0 then w
    else { w with snake := some { s with state := { s.state with next_dir := candidate k } } }

/-- The commit of vroom: if next_dir is not the exact negation of
curr_dir, it becomes the new curr_dir; otherwise curr_dir stands. -/
def commitDir (st : GameState) : IVec2 :=
  if st.next_dir ≠ -st.curr_dir then st.next_dir else st.curr_dir

/-- One motion step of vroom on the snake (the body of the
tick.finished() branch): commit the direction, take the head with
front().unwrap(), push the new head, pop the tail, set GridPos.
none models the panic of front().unwrap() on an empty body. -/
def vroomSnake (s : Snake) : Option Snake :=
  match s.body with
  | [] => none
  | h :: _ =>
    let cd := commitDir s.state
    let next := h + cd
    some
      { body := (next :: s.body).dropLast,
        state := { curr_dir := cd, next_dir := s.state.next_dir },
        gridPos := next }

/-- One iteration of the grow system's loop on one Grow entity: if
turns <= count the captured cell is pushed onto the back of the body;
turns is decremented; at zero the entity despawns (none). -/
def growStep (count : ℕ) (b : List IVec2) (g : Grow) : List IVec2 × Option Grow :=
  let b1 := if g.turns ≤ count then b ++ [g.pos] else b
  let t := g.turns - 1
  (b1, if t = 0 then none else some { turns := t, pos := g.pos })

/-- The grow system's loop over all Grow entities in spawn order,
returning the new body and the surviving Grow entities. -/
def growSys (count : ℕ) (gs : List Grow) (b : List IVec2) : List IVec2 × List Grow :=
  match gs with
  | [] => (b, [])
  | g :: rest =>
    let r := growStep count b g
    let r2 := growSys count rest r.1
    (r2.1, r.2.toList ++ r2.2)

/-- The grow system on the world (it returns early when the
Changed-gated snake query is empty; the caller only invokes it on
frames where GridPos changed). -/
def applyGrow (w : World) : World :=
  match w.snake with
  | none => w
  | some s =>
    let r := growSys w.count w.grows s.body
    { w with snake := some { s with body := r.1 }, grows := r.2 }

/-- The eat system: if the snake's GridPos equals the food cell,
increment FoodCount, despawn the food, spawn a Grow request whose turns
field is the incremented count and whose pos is body.back().unwrap(),
play nom, and shorten the tick duration to
max(duration - ACCELERATION, MIN_TICK_DELAY).  none models the panic of
back().unwrap() on an empty body. -/
def eatSys (w : World) : Option World :=
  match w.snake, w.food with
  | some s, some f =>
    if s.gridPos = f then
      match s.body.getLast? with
      | some tl =>
        some { w with
          count := w.count + 1,
          food := none,
          grows := w.grows ++ [{ turns := w.count + 1, pos := tl }],
          sounds := w.sounds ++ [Sound.nom],
          tickDur := max (w.tickDur - ACCELERATION) MIN_TICK_DELAY }
      | none => none
    else some w
  | _, _ => some w

/-- min = -STAGE_SIZE.as_ivec2() / 2 in die. -/
def dieMin : IVec2 := ((-STAGE_SIZE.1) / 2, (-STAGE_SIZE.2) / 2)

/-- max = min + STAGE_SIZE.as_ivec2() in die. -/
def dieMax : IVec2 := dieMin + STAGE_SIZE

/-- IRect::from_corners(min, max).contains(p): componentwise
min <= p <= max, both bounds inclusive (here min <= max componentwise,
so from_corners keeps the corners as given). -/
def inBounds (p : IVec2) : Bool :=
  decide (dieMin.1 ≤ p.1) && decide (p.1 ≤ dieMax.1) &&
  decide (dieMin.2 ≤ p.2) && decide (p.2 ≤ dieMax.2)

/-- The game_over closure of die: despawn the snake entity and every
food entity, write the game-over text, play ouch. -/
def gameOver (w : World) : World :=
  { w with snake := none, food := none, gameOverMsg := true,
           sounds := w.sounds ++ [Sound.ouch] }

/-- The die system: out of bounds, or GridPos equal to a body cell other
than the first (iter().skip(1)), triggers game_over. -/
def dieSys (w : World) : World :=
  match w.snake with
  | none => w
  | some s =>
    if inBounds s.gridPos = false then gameOver w
    else if s.gridPos ∈ s.body.drop 1 then gameOver w
    else w

/-- The ungated first half of a frame: the optional spawn (consuming a
Restart event sent last frame), then make_food, then input. -/
def preFrame (i : FrameIn) (w0 : World) : World :=
  inputSys i.keys (makeFoodSys i.samples
    (if w0.restartPending then spawnSys { w0 with restartPending := false, sounds := [] }
     else { w0 with sounds := [] }))

/-- The part of the frame gated on Changed of GridPos: the grow system,
then the eat system, then the die system. -/
def postMotion (w : World) : Option World := (eatSys (applyGrow w)).map dieSys

/-- One whole Update schedule pass, in the chained order
spawn - make_food - input - vroom - grow - eat - die.  spawn runs only
when a Restart event was sent last frame.  grow, eat and die are gated
on Changed of GridPos: they act only when vroom moved the snake this
frame or the snake was spawned this frame (Added counts as Changed).
The sounds field collects the sounds emitted during this frame. -/
def frame (i : FrameIn) (w0 : World) : Option World :=
  match (preFrame i w0).snake with
  | none => some (preFrame i w0)
  | some s =>
    if i.tickFires then
      match vroomSnake s with
      | none => none
      | some s1 => postMotion { preFrame i w0 with snake := some s1 }
    else if w0.restartPending then postMotion (preFrame i w0)
    else some (preFrame i w0)

/-- Run a list of frames. -/
def run (ins : List FrameIn) (w : World) : Option World :=
  match ins with
  | [] => some w
  | i :: rest =>
    match frame i w with
    | none => none
    | some w1 => run rest w1

/-- The world as the app starts: no snake, no food, no Grow entities,
FoodCount 0, tick duration INITIAL_TICK_DELAY. -/
def initialWorld : World :=
  { snake := none, food := none, grows := [], count := 0,
    tickDur := INITIAL_TICK_DELAY, restartPending := false,
    gameOverMsg := false, sounds := [] }

/-! ### Concrete inputs used in counterexamples and witnesses -/

def noKeys : Keys := { left := false, right := false, up := false, down := false, space := false }

def spaceKeys : Keys := { noKeys with space := true }

def leftKeys : Keys := { noKeys with left := true }

def downKeys : Keys := { noKeys with down := true }

def idleIn : FrameIn := { keys := noKeys, tickFires := false, samples := [] }

def tickIn (sm : List IVec2) : FrameIn := { keys := noKeys, tickFires := true, samples := sm }

def tickInL (sm : List IVec2) : FrameIn := { keys := leftKeys, tickFires := true, samples := sm }

/-- The snake exactly as spawn creates it. -/
def snake0 : Snake :=
  { body := [((0 : ℤ), (0 : ℤ))],
    state := { curr_dir := START_DIR, next_dir := START_DIR },
    gridPos := (0, 0) }

/-- A run: press Space, then four ticks; food is eaten at (0, 1) and at
(0, 2) (raw samples (10, 11) and (10, 12)), the third food lands far
away at (-10, -10), and the last two ticks let the second Grow request
finish resolving. -/
def script1 : List FrameIn :=
  [ { idleIn with keys := spaceKeys },
    tickIn [(10, 11)],
    tickIn [(10, 12)],
    tickIn [(0, 0)],
    tickIn [] ]

def bodyLenOf (w : World) : Option ℕ :=
  match w.snake with
  | some s => some s.body.length
  | none => none

def countGrowsLen (w : World) : ℕ × ℕ × Option ℕ := (w.count, w.grows.length, bodyLenOf w)

/-- Whether a live food cell is currently a member of the snake body. -/
def foodInBody (w : World) : Bool :=
  match w.snake, w.food with
  | some s, some fd => decide (fd ∈ s.body)
  | _, _ => false

/-- Two consecutive games.  Game 1: turn left, eat at (-1,0), (-2,0),
(-3,0), then at (-10,0), and run out of the field one tick later, dying
with a Grow request (4 turns, captured cell (-4,0)) still unresolved.
Game 2: respawn, eat at (0,1) on the first tick; on the next tick
make_food places food at (-4,0) (empty at that moment) and the stale
Grow request from game 1 fires and appends (-4,0) to the new body. -/
def script7 : List FrameIn :=
  [ { idleIn with keys := spaceKeys },
    tickInL [(9, 10)],
    tickIn [(8, 10)],
    tickIn [(7, 10)],
    tickIn [(0, 10)],
    tickIn [], tickIn [], tickIn [], tickIn [], tickIn [],
    tickIn [],
    tickIn [(19, 19)],
    { idleIn with keys := spaceKeys },
    { idleIn with samples := [(10, 11)] },
    tickIn [],
    tickIn [(6, 10)] ]

/-! ### Helper lemmas -/

theorem dropLast_concat_getLast {α : Type} (l : List α) (x : α)
    (h : l.getLast? = some x) : l.dropLast ++ [x] = l := by
  cases l with
  | nil => simp at h
  | cons a as =>
    have hne : a :: as ≠ [] := by simp
    rw [List.getLast?_eq_getLast _ hne] at h
    have hx : (a :: as).getLast hne = x := by
      injection h
    rw [← hx]
    exact List.dropLast_append_getLast hne

/-- Projections of the snake through one motion step: on a non-empty
body, vroom succeeds, keeps the length, and keeps the body non-empty. -/
theorem vroom_length (s : Snake) (h : s.body ≠ []) :
    ∃ s1, vroomSnake s = some s1 ∧ s1.body.length = s.body.length ∧ s1.body ≠ [] := by
  obtain ⟨b, st, p⟩ := s
  match b with
  | [] => exact absurd rfl h
  | a :: rest =>
    refine ⟨_, rfl, ?_, ?_⟩
    · simp [List.length_dropLast]
    · simp

/-! ### Claim C2: the intent resolver and the reversal guard -/

def nextDirOf (w : World) : Option IVec2 :=
  match w.snake with
  | some s => some s.state.next_dir
  | none => none

def w2ex : World := { initialWorld with snake := some snake0 }

/-- Claim C2, counterexample: with the snake moving up (current and
pending direction START_DIR = (0,1)) and only the Down key held, the
resolved candidate is (0,-1), the exact negation of the current
direction; the claim says the buffered pending direction is then left
unchanged by the intent-resolver stage, but the input system overwrites
it with (0,-1). -/
theorem c2_counterexample :
    candidate downKeys = -START_DIR ∧
    candidate downKeys ≠ ((0 : ℤ), (0 : ℤ)) ∧
    nextDirOf w2ex = some START_DIR ∧
    nextDirOf (inputSys downKeys w2ex) = some (-START_DIR) ∧
    nextDirOf (inputSys downKeys w2ex) ≠ nextDirOf w2ex := by
  decide

/-- Claim C2, amended: while a snake exists, the input system overwrites
pending_direction with every resolved non-zero candidate, including the
exact negation of current_direction; a zero candidate (no keys, or keys
cancelling on both axes) leaves the state unchanged.  The reversal guard
is applied only at commit time, in the motion step: a pending direction
equal to the exact negation of current_direction is not committed. -/
theorem c2_input_overwrite_amended (k : Keys) (w : World) (s : Snake)
    (hs : w.snake = some s) :
    (¬(horOf k = 0 ∧ verOf k = 0) →
      inputSys k w =
        { w with snake := some { s with state := { s.state with next_dir := candidate k } } })
  ∧ ((horOf k = 0 ∧ verOf k = 0) → inputSys k w = w)
  ∧ (∀ st : GameState, st.next_dir = -st.curr_dir → commitDir st = st.curr_dir)
  ∧ (∀ st : GameState, st.next_dir ≠ -st.curr_dir → commitDir st = st.next_dir) := by
  refine ⟨?_, ?_, ?_, ?_⟩
  · intro hne
    simp only [inputSys, hs]
    rw [if_neg hne]
  · intro hz
    simp only [inputSys, hs]
    rw [if_pos hz]
  · intro st hrev
    simp [commitDir, hrev]
  · intro st hrev
    simp [commitDir, hrev]

theorem c2_witness : inputSys noKeys w2ex = w2ex :=
  (c2_input_overwrite_amended noKeys w2ex snake0 rfl).2.1 (by decide)

/-! ### Claim C5: food sampler region versus death-check region -/

/-- Claim C5, counterexample: the cell (10, 10) is treated as inside the
field by the death check (IRect contains is inclusive of its max corner,
giving a 21 x 21 region), yet no raw sample of the food sampler can
produce it (samples map onto coordinates in [-10, 9]). -/
theorem c5_counterexample :
    inBounds (10, 10) = true ∧ ¬ producible (10, 10) := by
  refine ⟨by decide, ?_⟩
  rintro ⟨t, ht, he⟩
  unfold rawSample STAGE_SIZE at ht
  unfold sampleToPos STAGE_SIZE at he
  obtain ⟨h1, h2, h3, h4⟩ := ht
  rw [Prod.ext_iff] at he
  simp only at he h2 h4
  obtain ⟨he1, he2⟩ := he
  omega

/-- Claim C5, amended: the food sampler can produce exactly the 20 x 20
cells with both coordinates in [-10, 9], while the death check treats as
inside the 21 x 21 cells with both coordinates in [-10, 10]; every
producible cell is inside the death bounds, but the max edge of the
death region (coordinate 10) is unreachable by the sampler, so the two
regions do not coincide. -/
theorem c5_field_regions_amended (c : IVec2) :
    (producible c ↔ -10 ≤ c.1 ∧ c.1 ≤ 9 ∧ -10 ≤ c.2 ∧ c.2 ≤ 9)
  ∧ (inBounds c = true ↔ -10 ≤ c.1 ∧ c.1 ≤ 10 ∧ -10 ≤ c.2 ∧ c.2 ≤ 10)
  ∧ (producible c → inBounds c = true) := by
  have hprod : producible c ↔ -10 ≤ c.1 ∧ c.1 ≤ 9 ∧ -10 ≤ c.2 ∧ c.2 ≤ 9 := by
    constructor
    · rintro ⟨t, ht, he⟩
      unfold rawSample STAGE_SIZE at ht
      unfold sampleToPos STAGE_SIZE at he
      obtain ⟨h1, h2, h3, h4⟩ := ht
      rw [Prod.ext_iff] at he
      simp only at he h2 h4
      obtain ⟨he1, he2⟩ := he
      omega
    · rintro ⟨h1, h2, h3, h4⟩
      refine ⟨(c.1 + 10, c.2 + 10), ?_, ?_⟩
      · unfold rawSample STAGE_SIZE
        simp only
        omega
      · unfold sampleToPos STAGE_SIZE
        simp only
        rw [Prod.ext_iff]
        simp only
        omega
  have hin : inBounds c = true ↔ -10 ≤ c.1 ∧ c.1 ≤ 10 ∧ -10 ≤ c.2 ∧ c.2 ≤ 10 := by
    unfold inBounds dieMax dieMin STAGE_SIZE
    simp only [Prod.fst_add, Prod.snd_add, Bool.and_eq_true, decide_eq_true_eq]
    constructor
    · rintro ⟨⟨⟨a, b⟩, d⟩, e⟩
      omega
    · rintro ⟨a, b, d, e⟩
      refine ⟨⟨⟨?_, ?_⟩, ?_⟩, ?_⟩ <;> omega
  refine ⟨hprod, hin, ?_⟩
  intro hp
  rw [hin]
  have h := hprod.mp hp
  omega

theorem c5_witness : inBounds ((0 : ℤ), (0 : ℤ)) = true :=
  (c5_field_regions_amended (0, 0)).2.2 ⟨(10, 10), by decide, by decide⟩

/-! ### Claim C9: restart signal and fresh spawn -/

/-- Claim C9: while no snake exists, a Space press sends the Restart
signal (and nothing else changes); the spawn system then creates exactly
one fresh snake whose body is the single origin cell, with current and
pending direction both equal to START_DIR and GridPos at the origin,
resets FoodCount to 0, resets the tick duration to its initial value,
emits the ready sound (ding), and the game is in the Playing phase. -/
theorem c9_spawn_fresh (w : World) (k : Keys) (hs : w.snake = none) :
    (k.space = true → inputSys k w = { w with restartPending := true })
  ∧ (k.space = false → inputSys k w = w)
  ∧ (spawnSys w).snake = some snake0
  ∧ (spawnSys w).count = 0
  ∧ (spawnSys w).tickDur = INITIAL_TICK_DELAY
  ∧ Sound.ding ∈ (spawnSys w).sounds
  ∧ phaseOf (spawnSys w) = Phase.Playing := by
  refine ⟨?_, ?_, rfl, rfl, rfl, ?_, rfl⟩
  · intro hk
    simp [inputSys, hs, hk]
  · intro hk
    simp [inputSys, hs, hk]
  · simp [spawnSys]

theorem c9_witness : (spawnSys initialWorld).count = 0 ∧ (spawnSys initialWorld).snake = some snake0 :=
  ⟨(c9_spawn_fresh initialWorld spaceKeys rfl).2.2.2.1,
   (c9_spawn_fresh initialWorld spaceKeys rfl).2.2.1⟩

/-! ### Claim C4: the death transition -/

/-- Claim C4: whenever the snake's GridPos is outside the bounded field
or equals a body cell other than the head (the cells after index 0),
the die system, in that same frame, despawns the snake entity and any
live food, writes the game-over message, emits the ouch sound, and
leaves the game in the Begin phase. -/
theorem c4_death_transition (w : World) (s : Snake) (hs : w.snake = some s)
    (hd : inBounds s.gridPos = false ∨ s.gridPos ∈ s.body.drop 1) :
    dieSys w = { w with snake := none, food := none, gameOverMsg := true,
                        sounds := w.sounds ++ [Sound.ouch] }
  ∧ (dieSys w).snake = none
  ∧ (dieSys w).food = none
  ∧ phaseOf (dieSys w) = Phase.Begin := by
  have h1 : dieSys w = gameOver w := by
    simp only [dieSys, hs]
    rcases hd with h | h
    · rw [if_pos h]
    · by_cases hb : inBounds s.gridPos = false
      · rw [if_pos hb]
      · rw [if_neg hb, if_pos h]
  rw [h1]
  exact ⟨rfl, rfl, rfl, rfl⟩

def deadSnake : Snake :=
  { body := [((11 : ℤ), (0 : ℤ))],
    state := { curr_dir := START_DIR, next_dir := START_DIR },
    gridPos := (11, 0) }

def w4ex : World := { initialWorld with snake := some deadSnake }

theorem c4_witness :
    dieSys w4ex = { w4ex with snake := none, food := none, gameOverMsg := true,
                              sounds := w4ex.sounds ++ [Sound.ouch] } :=
  (c4_death_transition w4ex deadSnake rfl (Or.inl (by decide))).1

/-! ### Claim C8: length invariance without Grow requests -/

/-- N successive motion steps of vroom (one per advance event). -/
def tickN : ℕ → Snake → Option Snake
  | 0, s => some s
  | n + 1, s =>
    match vroomSnake s with
    | none => none
    | some s1 => tickN n s1

/-- Claim C8: for every N, after N advance events with no eat event (so
the grow system, given no Grow requests, leaves the body untouched),
the body length equals its length before the first advance. -/
theorem c8_length_invariant (n : ℕ) (s : Snake) (h : s.body ≠ []) :
    ∃ s2, tickN n s = some s2 ∧ s2.body.length = s.body.length
      ∧ ∀ c : ℕ, growSys c [] s2.body = (s2.body, []) := by
  induction n generalizing s with
  | zero => exact ⟨s, rfl, rfl, fun c => rfl⟩
  | succ n ih =>
    obtain ⟨s1, hv, hl, hne⟩ := vroom_length s h
    obtain ⟨s2, ht, hl2, hg⟩ := ih s1 hne
    refine ⟨s2, ?_, ?_, hg⟩
    · simp only [tickN, hv]
      exact ht
    · rw [hl2, hl]

theorem c8_witness :
    ∃ s2, tickN 3 snake0 = some s2 ∧ s2.body.length = snake0.body.length
      ∧ ∀ c : ℕ, growSys c [] s2.body = (s2.body, []) :=
  c8_length_invariant 3 snake0 (by decide)

/-! ### Claim C3: one advance event and the firing Grow requests -/

/-- The first four frames of a run with eat events on three consecutive
ticks (food at (0,1), (0,2), (0,3)): they end with two Grow requests
pending whose counters (1 and 3) both satisfy turns <= count = 3. -/
def script3a : List FrameIn :=
  [ { idleIn with keys := spaceKeys },
    tickIn [(10, 11)],
    tickIn [(10, 12)],
    tickIn [(10, 13)] ]

/-- script3a followed by one more advance event, on which both pending
requests fire. -/
def script3b : List FrameIn := script3a ++ [tickIn [(10, 10)]]

/-- Claim C3, counterexample: after script3a the snake is live with body
length 3, FoodCount 3, and two pending Grow requests whose predicates
both hold this tick (turns 1 <= 3 and turns 3 <= 3); the claim then
promises net length +1 on the next advance event, but the single
advance appended by script3b takes the body from length 3 to length 5 -
both firing requests append their captured cell after the tail pop - so
the net change is +2, not +1. -/
theorem c3_counterexample :
    (run script3a initialWorld).map countGrowsLen = some (3, 2, some 3)
  ∧ (run script3a initialWorld).map World.grows
      = some [{ turns := 1, pos := ((0 : ℤ), (1 : ℤ)) },
              { turns := 3, pos := ((0 : ℤ), (1 : ℤ)) }]
  ∧ (run script3b initialWorld).map countGrowsLen = some (3, 1, some 5)
  ∧ (5 : ℕ) ≠ 3 + 1 := by
  exact ⟨rfl, rfl, rfl, by decide⟩

/-- The Grow requests whose insertion predicate turns <= count fires on
the current tick. -/
def firing (c : ℕ) (gs : List Grow) : List Grow :=
  gs.filter (fun g => decide (g.turns ≤ c))

theorem firing_cons_pos (c : ℕ) (g : Grow) (gs : List Grow) (h : g.turns ≤ c) :
    firing c (g :: gs) = g :: firing c gs := by
  simp [firing, List.filter_cons, h]

theorem firing_cons_neg (c : ℕ) (g : Grow) (gs : List Grow) (h : ¬ g.turns ≤ c) :
    firing c (g :: gs) = firing c gs := by
  simp [firing, List.filter_cons, h]

/-- The grow system appends to the body exactly the captured cells of
the requests that fire this tick, in request order. -/
theorem growSys_append (c : ℕ) (gs : List Grow) (b : List IVec2) :
    (growSys c gs b).1 = b ++ (firing c gs).map Grow.pos := by
  induction gs generalizing b with
  | nil => simp [growSys, firing]
  | cons g rest ih =>
    by_cases hg : g.turns ≤ c
    · rw [firing_cons_pos c g rest hg]
      simp only [growSys, growStep, if_pos hg]
      rw [ih]
      simp [List.append_assoc]
    · rw [firing_cons_neg c g rest hg]
      simp only [growSys, growStep, if_neg hg]
      rw [ih]

/-- Claim C3, amended: on an advance event with a live snake, the
pending direction is committed into the current direction unless it is
its exact negation (commitDir); the new head equals the old head plus
the committed current direction and is pushed on the head end; GridPos
is set to the new head unconditionally; and one cell is always popped
from the tail end - the pop is not skipped.  The grow system then
appends, at the tail end, the captured cell of every Grow request whose
predicate turns <= count fires this tick, so the net length change of
the advance is the number of firing requests, not always +1: zero with
no pending request, and +1 only in the single-request case, where
moreover, within a single life of the snake, the captured cell equals
the popped tail (the request captures back() and re-appends it on every
later tick), so the result coincides with the claimed no-pop picture -
the new head followed by the whole old body, captured cell at the tail
end. -/
theorem c3_advance_step_amended (s : Snake) (a : IVec2) (rest : List IVec2)
    (cnt : ℕ) (g : Grow) (gs : List Grow)
    (hb : s.body = a :: rest) (hg : g.turns ≤ cnt)
    (hp : s.body.getLast? = some g.pos) :
    vroomSnake s = some
      { body := ((a + commitDir s.state) :: s.body).dropLast,
        state := { curr_dir := commitDir s.state, next_dir := s.state.next_dir },
        gridPos := a + commitDir s.state }
  ∧ (∀ (c2 : ℕ) (gs2 : List Grow) (b2 : List IVec2),
      (growSys c2 gs2 b2).1 = b2 ++ (firing c2 gs2).map Grow.pos)
  ∧ ((growSys cnt gs (((a + commitDir s.state) :: s.body).dropLast)).1).length
      = s.body.length + (firing cnt gs).length
  ∧ growSys cnt [] (((a + commitDir s.state) :: s.body).dropLast)
      = ((((a + commitDir s.state) :: s.body).dropLast), [])
  ∧ (growSys cnt [g] (((a + commitDir s.state) :: s.body).dropLast)).1
      = (a + commitDir s.state) :: s.body := by
  obtain ⟨b, st, p⟩ := s
  simp only at hb hp
  subst hb
  refine ⟨rfl, growSys_append, ?_, rfl, ?_⟩
  · rw [growSys_append]
    simp only [List.length_append, List.length_map, List.length_dropLast,
      List.length_cons]
    omega
  · rw [growSys_append]
    have hf : firing cnt [g] = [g] := by
      simp [firing, hg]
    rw [hf]
    simp only [List.map_cons, List.map_nil]
    have h3 : ((a + commitDir st) :: a :: rest).dropLast
        = (a + commitDir st) :: (a :: rest).dropLast := by
      simp
    rw [h3, List.cons_append, dropLast_concat_getLast (a :: rest) g.pos hp]

theorem c3_witness :
    (growSys 1 [{ turns := 1, pos := ((0 : ℤ), (0 : ℤ)) }]
        (((((0 : ℤ), (0 : ℤ)) + commitDir snake0.state) :: snake0.body).dropLast)).1
      = (((0 : ℤ), (0 : ℤ)) + commitDir snake0.state) :: snake0.body :=
  (c3_advance_step_amended snake0 (0, 0) [] 1 { turns := 1, pos := (0, 0) }
    [{ turns := 1, pos := (0, 0) }] rfl (by decide) rfl).2.2.2.2

/-! ### Claim C1: what one eat event actually schedules -/

/-- The grow system applied over n successive advance events (the body
changes made by vroom in between do not touch the Grow entities and
only add or remove cells at the ends, so the growth bookkeeping is
captured by iterating the grow system on its own). -/
def growIter (count : ℕ) : ℕ → List Grow → List IVec2 → List IVec2 × List Grow
  | 0, gs, b => (b, gs)
  | n + 1, gs, b =>
    let r := growSys count gs b
    growIter count n r.2 r.1

theorem growSys_single_fire (c : ℕ) (p : IVec2) (n : ℕ) (b : List IVec2)
    (h2 : n ≤ c) :
    growSys c [{ turns := n, pos := p }] b
      = (b ++ [p], if n - 1 = 0 then [] else [{ turns := n - 1, pos := p }]) := by
  simp only [growSys, growStep, if_pos h2]
  split <;> rfl

/-- A single Grow request created with counter n (and n never exceeding
the current FoodCount, which holds from creation on since the counter
equals the count at creation and the count never decreases while the
snake lives) fires on every one of the n following advance events,
appending its captured cell each time, and despawns after the n-th. -/
theorem growIter_single (c : ℕ) (p : IVec2) :
    ∀ n b, 1 ≤ n → n ≤ c →
      growIter c n [{ turns := n, pos := p }] b = (b ++ List.replicate n p, []) := by
  intro n
  induction n with
  | zero => intro b h1 h2; omega
  | succ n ih =>
    intro b h1 h2
    by_cases hn : n = 0
    · subst hn
      simp only [growIter, growSys_single_fire c p 1 b (by omega)]
      simp [growIter]
    · have hs : growSys c [{ turns := n + 1, pos := p }] b
          = (b ++ [p], [{ turns := n, pos := p }]) := by
        rw [growSys_single_fire c p (n + 1) b h2]
        simp [hn]
      simp only [growIter, hs]
      rw [ih (b ++ [p]) (by omega) (by omega)]
      simp [List.replicate_succ, List.append_assoc]

/-- FoodCount, number of live Grow entities, and body length at the end
of a run from the initial world. -/
def finalSummary (ins : List FrameIn) : Option (ℕ × ℕ × Option ℕ) :=
  (run ins initialWorld).map countGrowsLen

/-- Claim C1, counterexample: in the run script1 there are exactly two
eat events (final FoodCount 2) and every Grow request has resolved
(no Grow entities remain), yet the final body length is 4, not the
claimed initial length + number of eat events = 1 + 2 = 3: the second
eat alone scheduled two length increases, because its request, created
with turns = 2 = count, satisfies turns <= count on both of the two
following advance events. -/
theorem c1_counterexample :
    finalSummary script1 = some (2, 0, some 4)
  ∧ finalSummary script1 ≠ some (2, 0, some (1 + 2)) := by
  constructor
  · rfl
  · decide

/-- Claim C1, amended: each eat event increments FoodCount by exactly 1,
despawns the food, emits the nom sound, shortens the tick interval, and
schedules a Grow request whose counter equals the incremented count -
but that request fires on every one of its counter-many following
advance events (its predicate turns <= count holds from creation on),
appending its captured cell each time; so an eat at score s schedules s
future body-length increases, and after all requests resolve the body
length equals the initial length plus the sum of the scores at the eat
events, not plus the number of eat events. -/
theorem c1_eat_growth_amended (w : World) (s : Snake) (f tl : IVec2)
    (hs : w.snake = some s) (hf : w.food = some f) (hp : s.gridPos = f)
    (ht : s.body.getLast? = some tl) :
    eatSys w = some { w with count := w.count + 1,
                             food := none,
                             grows := w.grows ++ [{ turns := w.count + 1, pos := tl }],
                             sounds := w.sounds ++ [Sound.nom],
                             tickDur := max (w.tickDur - ACCELERATION) MIN_TICK_DELAY }
  ∧ (∀ (c n : ℕ) (p : IVec2) (b : List IVec2), 1 ≤ n → n ≤ c →
      growIter c n [{ turns := n, pos := p }] b = (b ++ List.replicate n p, [])
        ∧ (b ++ List.replicate n p).length = b.length + n) := by
  constructor
  · simp only [eatSys, hs, hf, if_pos hp, ht]
  · intro c n p b h1 h2
    exact ⟨growIter_single c p n b h1 h2, by simp⟩

def wEat : World := { initialWorld with snake := some snake0, food := some ((0 : ℤ), (0 : ℤ)) }

theorem c1_witness :
    eatSys wEat = some { wEat with count := 1,
                                   food := none,
                                   grows := [{ turns := 1, pos := ((0 : ℤ), (0 : ℤ)) }],
                                   sounds := [Sound.nom],
                                   tickDur := max (wEat.tickDur - ACCELERATION) MIN_TICK_DELAY } :=
  (c1_eat_growth_amended wEat snake0 (0, 0) (0, 0) rfl rfl rfl rfl).1

/-! ### Claim C7: the food-outside-body invariant and the stale-Grow leak -/

/-- The food-spawn loop is sound: whenever it creates food, the cell is
outside the body, and if the raw samples are in the RNG range the cell
is inside the sampler's field. -/
theorem pickFood_sound (samples : List IVec2) (body : List IVec2) (p : IVec2)
    (hr : ∀ t ∈ samples, rawSample t) (h : pickFood samples body = some p) :
    p ∉ body ∧ producible p := by
  induction samples with
  | nil => simp [pickFood] at h
  | cons t rest ih =>
    simp only [pickFood] at h
    by_cases hm : sampleToPos t ∈ body
    · rw [if_pos hm] at h
      exact ih (fun u hu => hr u (List.mem_cons_of_mem t hu)) h
    · rw [if_neg hm] at h
      injection h with h
      subst h
      exact ⟨hm, ⟨t, hr t (List.mem_cons_self t rest), rfl⟩⟩

/-- Claim C7, violated by the code: at the end of the last frame of
script7 a Food instance exists at (-4, 0) and that cell is a member of
the snake's body.  The cause: die never despawns Grow entities, so a
request that was pending when the previous snake died survives the
restart; in the new game it fires (once enough food has been eaten for
its decremented counter to pass turns <= count) and appends a cell of
the dead snake's body, which make_food had legitimately treated as free
when it placed the current food there earlier in the same frame. -/
theorem c7_stale_grow_bug :
    (run script7 initialWorld).map foodInBody = some true
  ∧ (run script7 initialWorld).map World.food = some (some ((-4 : ℤ), (0 : ℤ)))
  ∧ (run script7 initialWorld).map countGrowsLen = some (1, 0, some 3) := by
  exact ⟨rfl, rfl, rfl⟩

/-! ### Frame-level bookkeeping lemmas -/

/-- Whenever a snake exists its body is non-empty. -/
def bodyNE (w : World) : Prop := ∀ s, w.snake = some s → s.body ≠ []

theorem makeFoodSys_snake (sm : List IVec2) (w : World) :
    (makeFoodSys sm w).snake = w.snake := by
  unfold makeFoodSys
  split
  · rfl
  · split
    · split <;> rfl
    · rfl

theorem makeFoodSys_tickDur (sm : List IVec2) (w : World) :
    (makeFoodSys sm w).tickDur = w.tickDur := by
  unfold makeFoodSys
  split
  · rfl
  · split
    · split <;> rfl
    · rfl

theorem inputSys_tickDur (k : Keys) (w : World) :
    (inputSys k w).tickDur = w.tickDur := by
  unfold inputSys
  split
  · split <;> rfl
  · split <;> rfl

theorem inputSys_bodyNE (k : Keys) (w : World) (h : bodyNE w) :
    bodyNE (inputSys k w) := by
  unfold inputSys
  split
  · split
    · intro s hs
      simp only at hs
      exact h s hs
    · exact h
  · next s0 hsnake =>
    split
    · exact h
    · intro s hs
      simp only [Option.some.injEq] at hs
      subst hs
      simpa using h s0 hsnake

theorem spawnSys_bodyNE (w : World) : bodyNE (spawnSys w) := by
  intro s hs
  simp only [spawnSys, Option.some.injEq] at hs
  subst hs
  simp

theorem growSys_ne (c : ℕ) (gs : List Grow) (b : List IVec2) (h : b ≠ []) :
    (growSys c gs b).1 ≠ [] := by
  induction gs generalizing b with
  | nil => exact h
  | cons g rest ih =>
    simp only [growSys, growStep]
    apply ih
    split
    · simp
    · exact h

theorem applyGrow_bodyNE (w : World) (h : bodyNE w) : bodyNE (applyGrow w) := by
  unfold applyGrow
  split
  · exact h
  · next s hs =>
    intro s2 hs2
    simp only [Option.some.injEq] at hs2
    subst hs2
    exact growSys_ne w.count w.grows s.body (h s hs)

theorem applyGrow_tickDur (w : World) : (applyGrow w).tickDur = w.tickDur := by
  unfold applyGrow
  split <;> rfl

theorem eatSys_snake (w w2 : World) (h : eatSys w = some w2) : w2.snake = w.snake := by
  unfold eatSys at h
  split at h
  · split at h
    · split at h
      · injection h with h
        subst h
        rfl
      · cases h
    · injection h with h
      subst h
      rfl
  · injection h with h
    subst h
    rfl

theorem eatSys_total (w : World) (h : bodyNE w) : ∃ w2, eatSys w = some w2 := by
  unfold eatSys
  split
  · next s f hs hf =>
    split
    · match hl : s.body.getLast? with
      | some tl => exact ⟨_, rfl⟩
      | none =>
        rw [List.getLast?_eq_none_iff] at hl
        exact absurd hl (h s hs)
    · exact ⟨_, rfl⟩
  · exact ⟨_, rfl⟩

theorem eatSys_tickDur (w w2 : World) (h : eatSys w = some w2) :
    w2.tickDur = w.tickDur ∨
    w2.tickDur = max (w.tickDur - ACCELERATION) MIN_TICK_DELAY := by
  unfold eatSys at h
  split at h
  · split at h
    · split at h
      · injection h with h
        subst h
        right
        rfl
      · cases h
    · injection h with h
      subst h
      left
      rfl
  · injection h with h
    subst h
    left
    rfl

theorem dieSys_bodyNE (w : World) (h : bodyNE w) : bodyNE (dieSys w) := by
  unfold dieSys
  split
  · exact h
  · split
    · intro s hs
      simp only [gameOver] at hs
      cases hs
    · split
      · intro s hs
        simp only [gameOver] at hs
        cases hs
      · exact h

theorem dieSys_tickDur (w : World) : (dieSys w).tickDur = w.tickDur := by
  unfold dieSys
  split
  · rfl
  · split
    · rfl
    · split <;> rfl

theorem preFrame_bodyNE (i : FrameIn) (w : World) (h : bodyNE w) :
    bodyNE (preFrame i w) := by
  unfold preFrame
  apply inputSys_bodyNE
  intro s hs
  rw [makeFoodSys_snake] at hs
  by_cases hr : w.restartPending = true
  · rw [if_pos hr] at hs
    exact spawnSys_bodyNE _ s hs
  · rw [if_neg hr] at hs
    simp only at hs
    exact h s hs

theorem preFrame_tickDur (i : FrameIn) (w : World) :
    (preFrame i w).tickDur
      = if w.restartPending then INITIAL_TICK_DELAY else w.tickDur := by
  unfold preFrame
  rw [inputSys_tickDur, makeFoodSys_tickDur]
  by_cases hr : w.restartPending = true
  · rw [if_pos hr, if_pos hr]
    rfl
  · rw [if_neg hr, if_neg hr]

theorem postMotion_total_bodyNE (w : World) (h : bodyNE w) :
    ∃ w2, postMotion w = some w2 ∧ bodyNE w2 := by
  have hag : bodyNE (applyGrow w) := applyGrow_bodyNE w h
  obtain ⟨w1, he⟩ := eatSys_total (applyGrow w) hag
  have h1 : bodyNE w1 := by
    intro s hs
    rw [eatSys_snake _ _ he] at hs
    exact hag s hs
  refine ⟨dieSys w1, ?_, dieSys_bodyNE w1 h1⟩
  simp only [postMotion, he, Option.map_some']

theorem postMotion_tickDur (w w2 : World) (h : postMotion w = some w2) :
    w2.tickDur = w.tickDur ∨
    w2.tickDur = max (w.tickDur - ACCELERATION) MIN_TICK_DELAY := by
  unfold postMotion at h
  match he : eatSys (applyGrow w) with
  | none =>
    rw [he] at h
    cases h
  | some w1 =>
    rw [he] at h
    have h2 : some (dieSys w1) = some w2 := h
    injection h2 with h2
    subst h2
    rw [dieSys_tickDur]
    have h3 := eatSys_tickDur _ _ he
    rwa [applyGrow_tickDur] at h3

theorem frame_total_bodyNE (i : FrameIn) (w : World) (h : bodyNE w) :
    ∃ w2, frame i w = some w2 ∧ bodyNE w2 := by
  have hpre : bodyNE (preFrame i w) := preFrame_bodyNE i w h
  unfold frame
  rcases hs : (preFrame i w).snake with _ | s
  · exact ⟨preFrame i w, rfl, hpre⟩
  · simp only
    by_cases ht : i.tickFires = true
    · rw [if_pos ht]
      obtain ⟨s1, hv, hlen, hne⟩ := vroom_length s (hpre s hs)
      rw [hv]
      apply postMotion_total_bodyNE
      intro s2 hs2
      simp only [Option.some.injEq] at hs2
      subst hs2
      exact hne
    · rw [if_neg ht]
      by_cases hr : w.restartPending = true
      · rw [if_pos hr]
        exact postMotion_total_bodyNE _ hpre
      · rw [if_neg hr]
        exact ⟨preFrame i w, rfl, hpre⟩

theorem frame_tickDur (i : FrameIn) (w w2 : World) (hf : frame i w = some w2) :
    w2.tickDur = (preFrame i w).tickDur ∨
    w2.tickDur = max ((preFrame i w).tickDur - ACCELERATION) MIN_TICK_DELAY := by
  unfold frame at hf
  split at hf
  · injection hf with hf
    subst hf
    exact Or.inl rfl
  · split at hf
    · split at hf
      · cases hf
      · have h2 := postMotion_tickDur _ _ hf
        exact h2
    · split at hf
      · exact postMotion_tickDur _ _ hf
      · injection hf with hf
        subst hf
        exact Or.inl rfl

/-! ### Claim C6: the tick interval never increases while running -/

/-- Claim C6: over any frame starting at or above the floor, the tick
duration never increases unless the frame performs a restart; a restart
resets it to INITIAL_TICK_DELAY (possibly shortened once in the same
frame if an eat also happens); it never drops below MIN_TICK_DELAY; the
spawn system always resets it to INITIAL_TICK_DELAY; and the only other
write is the eat system's, which sets it to
max(duration - ACCELERATION, MIN_TICK_DELAY). -/
theorem c6_tick_interval (i : FrameIn) (w w2 : World)
    (hf : frame i w = some w2) (hm : MIN_TICK_DELAY ≤ w.tickDur) :
    (w.restartPending = false → w2.tickDur ≤ w.tickDur)
  ∧ MIN_TICK_DELAY ≤ w2.tickDur
  ∧ (w.restartPending = true →
      w2.tickDur = INITIAL_TICK_DELAY ∨
      w2.tickDur = max (INITIAL_TICK_DELAY - ACCELERATION) MIN_TICK_DELAY)
  ∧ (∀ w3 : World, (spawnSys w3).tickDur = INITIAL_TICK_DELAY)
  ∧ (∀ w3 w4 : World, eatSys w3 = some w4 →
      w4.tickDur = w3.tickDur ∨
      w4.tickDur = max (w3.tickDur - ACCELERATION) MIN_TICK_DELAY) := by
  have hft := frame_tickDur i w w2 hf
  have hpt := preFrame_tickDur i w
  have hsub : ∀ d : ℚ, MIN_TICK_DELAY ≤ d →
      max (d - ACCELERATION) MIN_TICK_DELAY ≤ d := by
    intro d hd
    apply max_le
    · have ha : (0 : ℚ) ≤ ACCELERATION := by norm_num [ACCELERATION]
      linarith
    · exact hd
  have hminIni : MIN_TICK_DELAY ≤ INITIAL_TICK_DELAY := by
    norm_num [MIN_TICK_DELAY, INITIAL_TICK_DELAY]
  refine ⟨?_, ?_, ?_, fun w3 => rfl, fun w3 w4 he => eatSys_tickDur w3 w4 he⟩
  · intro hr
    simp only [hr, Bool.false_eq_true, if_false] at hpt
    rcases hft with h | h
    · rw [h, hpt]
    · rw [h, hpt]
      exact hsub w.tickDur hm
  · rcases hft with h | h
    · rw [h, hpt]
      by_cases hr : w.restartPending = true
      · rw [if_pos hr]
        exact hminIni
      · rw [if_neg hr]
        exact hm
    · rw [h]
      exact le_max_right _ _
  · intro hr
    simp only [hr, if_true] at hpt
    rcases hft with h | h
    · left
      rw [h, hpt]
    · right
      rw [h, hpt]

theorem c6_witness : MIN_TICK_DELAY ≤ initialWorld.tickDur :=
  (c6_tick_interval idleIn initialWorld initialWorld rfl
    (by norm_num [MIN_TICK_DELAY, initialWorld, INITIAL_TICK_DELAY])).2.1

/-! ### Claim C10: a live snake's body is never empty -/

theorem run_total_bodyNE (ins : List FrameIn) (w : World) (h : bodyNE w) :
    ∃ w2, run ins w = some w2 ∧ bodyNE w2 := by
  induction ins generalizing w with
  | nil => exact ⟨w, rfl, h⟩
  | cons i rest ih =>
    obtain ⟨w1, hf, h1⟩ := frame_total_bodyNE i w h
    obtain ⟨w2, hr, h2⟩ := ih w1 h1
    refine ⟨w2, ?_, h2⟩
    simp only [run, hf]
    exact hr

/-- Claim C10: every run from the initial world reaches only states in
which an existing snake has a non-empty body (spawn creates one cell,
vroom pushes a head before the tail pop, grow only appends), so no
frame ever hits the front().unwrap() of vroom or the back().unwrap()
of eat - the run never reaches the panic case (none). -/
theorem c10_body_nonempty (ins : List FrameIn) :
    ∃ w, run ins initialWorld = some w ∧ bodyNE w := by
  apply run_total_bodyNE
  intro s hs
  simp [initialWorld] at hs

theorem c10_witness : ∃ w, run script7 initialWorld = some w ∧ bodyNE w :=
  c10_body_nonempty script7
